import Mathlib

/-!
Verification of the PowF strength-reduction rewrite in
`mlir/lib/Dialect/Math/Transforms/AlgebraicSimplification.cpp`.

The rewrite pattern `PowFStrengthReduction::matchAndRewrite` inspects the
exponent operand of a `math.powf` operation.  When the exponent is a
compile-time scalar float constant, or a splat (uniform) dense vector
constant, whose value is exactly 1.0, 2.0, 3.0 or -1.0, it replaces the
operation with a cheaper chain of multiplies / a divide; otherwise it
returns failure and leaves the program unchanged.

Embedding choices:
* Floating-point constant values are modelled as exact rationals (`ℚ`).
  The source compares exponents with `APFloat::isExactlyValue`, which is
  exact (bit-for-bit) equality with no tolerance, so exact equality on a
  faithful numeric representative is the precise model of the comparison.
* The `PatternRewriter` is modelled by explicit state passing: the list of
  operations created so far.  `rewriter.create<OpT>` appends one operation
  and yields a reference to its result; `replaceOp`/`replaceOpWithNewOp`
  fix the replacement value for the rewritten operation.
* Result types of the created arithmetic operations (`MulFOp`, `DivFOp`,
  `math::SqrtOp`) are inferred from their first operand, as the builders
  of these same-operands-and-result-type operations do.
-/

namespace AlgebraicSimplification

/-- An MLIR type as far as this rewrite observes it: a scalar float type
(identified by its bit width) or a fixed one-dimensional vector thereof. -/
inductive MType where
  | float (bits : Nat)
  | vector (width : Nat) (bits : Nat)
deriving DecidableEq, Repr

/-- `getElementTypeOrSelf` from `mlir/IR/TypeUtilities.h`: the element type
of a shaped type, or the type itself when it is not shaped. -/
def getElementTypeOrSelf : MType → MType
  | .float b => .float b
  | .vector _ b => .float b

/-- What `matchPattern(value, m_Constant(&attr))` can learn about the
exponent operand: it is a scalar `FloatAttr` constant, a
`DenseFPElementsAttr` vector constant (with its element list), or not a
constant at all. -/
inductive ConstInfo where
  | floatAttr (c : ℚ)
  | denseElements (elems : List ℚ)
  | nonConstant
deriving DecidableEq, Repr

/-- An SSA value as an operand: its type and its constant information. -/
structure SSAVal where
  ty : MType
  cst : ConstInfo
deriving DecidableEq, Repr

/-- A `math::PowFOp`: base operand `lhs`, exponent operand `rhs`, and the
result type of the operation. -/
structure PowFOp where
  lhs : SSAVal
  rhs : SSAVal
  resultType : MType
deriving DecidableEq, Repr

/-- `DenseFPElementsAttr::isSplat`: every element equals the first. -/
def isSplat : List ℚ → Bool
  | [] => false
  | c :: rest => rest.all (fun d => decide (d = c))

/-- `DenseFPElementsAttr::getSplatValue`: the shared element value. -/
def getSplatValue : List ℚ → ℚ
  | [] => 0
  | c :: _ => c

/-- The `isExponentValue` lambda of `matchAndRewrite`: true iff the
exponent operand is a scalar constant exactly equal to `value`, or a splat
vector constant whose shared value is exactly `value`. -/
def isExponentValue (cst : ConstInfo) (value : ℚ) : Bool :=
  match cst with
  | .floatAttr c => decide (c = value)
  | .denseElements es =>
      if isSplat es then decide (getSplatValue es = value) else false
  | .nonConstant => false

/-- Kinds of operations the rewrite can construct (plus `powf`, the kind it
rewrites, so we can state that it never constructs one). A constant
operation carries its value. -/
inductive OpKind where
  | powf
  | mulf
  | divf
  | sqrt
  | broadcast
  | constantOp (c : ℚ)
deriving DecidableEq, Repr

/-- A reference to an SSA value available during the rewrite: the base
operand `x` of the power operation, or the result of the `i`-th newly
created operation. -/
inductive ValRef where
  | base
  | newOp (i : Nat)
deriving DecidableEq, Repr

/-- A newly constructed operation: its kind, operands, and result type. -/
structure NewOp where
  kind : OpKind
  args : List ValRef
  ty : MType
deriving DecidableEq, Repr

/-- The rewriter state: the list of operations created so far, in creation
order (each inserted before the rewritten operation). -/
abbrev Rewriter := List NewOp

/-- `rewriter.create<OpT>`: append a new operation and return the
reference to its result. -/
def createOp (r : Rewriter) (kind : OpKind) (args : List ValRef) (ty : MType) :
    Rewriter × ValRef :=
  (r ++ [⟨kind, args, ty⟩], ValRef.newOp r.length)

/-- The type of the value a `ValRef` denotes: the base operand keeps its
own type, and a created operation has the recorded result type. -/
def refType (lhsTy : MType) (r : Rewriter) : ValRef → MType
  | .base => lhsTy
  | .newOp i => (r.getD i ⟨OpKind.powf, [], lhsTy⟩).ty

/-- The `bcast` lambda of `matchAndRewrite`: if the result type of `op` is
a vector type, create a `vector::BroadcastOp` of `v` to that vector type;
otherwise return `v` unchanged. -/
def bcast (op : PowFOp) (r : Rewriter) (v : ValRef) : Rewriter × ValRef :=
  match op.resultType with
  | .vector w b => createOp r .broadcast [v] (.vector w b)
  | .float _ => (r, v)

/-- The outcome of a successful rewrite: the operations constructed (in
order) and the value substituted for every use of the rewritten
operation's result. -/
structure RewriteResult where
  newOps : List NewOp
  replacement : ValRef
deriving DecidableEq, Repr

/-- `PowFStrengthReduction::matchAndRewrite`.  `some res` models
`success()` after installing the rewrite described by `res`; `none` models
`failure()` with the program unchanged. -/
def matchAndRewrite (op : PowFOp) : Option RewriteResult :=
  let x := ValRef.base
  -- Replace `pow(x, 1.0)` with `x`.
  if isExponentValue op.rhs.cst 1 then
    some ⟨[], x⟩
  -- Replace `pow(x, 2.0)` with `x * x`.
  else if isExponentValue op.rhs.cst 2 then
    let (r1, m) := createOp [] .mulf [x, x] op.lhs.ty
    some ⟨r1, m⟩
  -- Replace `pow(x, 3.0)` with `x * (x * x)`.
  else if isExponentValue op.rhs.cst 3 then
    let (r1, square) := createOp [] .mulf [x, x] op.lhs.ty
    let (r2, m) := createOp r1 .mulf [x, square] op.lhs.ty
    some ⟨r2, m⟩
  -- Replace `pow(x, -1.0)` with `1.0 / x`.
  else if isExponentValue op.rhs.cst (-1) then
    let (r1, one) :=
      createOp [] (.constantOp 1) [] (getElementTypeOrSelf op.resultType)
    let (r2, b) := bcast op r1 one
    let (r3, d) := createOp r2 .divf [b, x] (refType op.lhs.ty r2 b)
    some ⟨r3, d⟩
  -- Guarded again on `-1.0` (comment in the source says `-2.0`): dead.
  else if isExponentValue op.rhs.cst (-1) then
    let (r1, s) := createOp [] .sqrt [x] op.lhs.ty
    some ⟨r1, s⟩
  else
    none

/-- The spec's `ExponentConstant` classification (§3): the statically
known shared exponent value, when there is one.  A scalar constant yields
its value, a splat vector constant yields the shared value, anything else
(non-splat vector, non-constant) yields `none`. -/
def extractExponent : ConstInfo → Option ℚ
  | .floatAttr c => some c
  | .denseElements es =>
      if isSplat es then some (getSplatValue es) else none
  | .nonConstant => none

/-- Does the rewrite output contain an operation of kind `k`? -/
def containsKind (res : RewriteResult) (k : OpKind) : Bool :=
  res.newOps.any (fun o => decide (o.kind = k))

/-- Number of operations constructed by an invocation outcome. -/
def newOpCount : Option RewriteResult → Nat
  | none => 0
  | some res => res.newOps.length

/-! Concrete operations used to exercise the theorems. -/

/-- `pow(%x, 1.0)` with scalar `f32` base. -/
def opExp1 : PowFOp :=
  ⟨⟨.float 32, .nonConstant⟩, ⟨.float 32, .floatAttr 1⟩, .float 32⟩

/-- `pow(%x, 2.0)` with scalar `f32` base. -/
def opExp2 : PowFOp :=
  ⟨⟨.float 32, .nonConstant⟩, ⟨.float 32, .floatAttr 2⟩, .float 32⟩

/-- `pow(%x, 3.0)` with scalar `f32` base. -/
def opExp3 : PowFOp :=
  ⟨⟨.float 32, .nonConstant⟩, ⟨.float 32, .floatAttr 3⟩, .float 32⟩

/-- `pow(%v, -1.0)` where `%v` has 4-wide vector type and the exponent is
the splat dense constant `[-1.0, -1.0, -1.0, -1.0]`. -/
def opExpNeg1Vec : PowFOp :=
  ⟨⟨.vector 4 32, .nonConstant⟩, ⟨.vector 4 32, .denseElements [-1, -1, -1, -1]⟩,
   .vector 4 32⟩

/-- `pow(%x, -1.0)` with scalar `f32` base. -/
def opExpNeg1Scalar : PowFOp :=
  ⟨⟨.float 32, .nonConstant⟩, ⟨.float 32, .floatAttr (-1)⟩, .float 32⟩

/-! Helper lemmas. -/

/-- The source's `isExponentValue` test agrees with the spec's
`ExponentConstant` classification: it holds exactly when the classified
shared exponent value is `value`. -/
theorem isExponentValue_eq_extract (cst : ConstInfo) (value : ℚ) :
    isExponentValue cst value = decide (extractExponent cst = some value) := by
  cases cst with
  | floatAttr c => simp [isExponentValue, extractExponent]
  | denseElements es =>
      by_cases h : isSplat es = true <;>
        simp [isExponentValue, extractExponent, h]
  | nonConstant => simp [isExponentValue, extractExponent]

theorem isExponentValue_of_extract {cst : ConstInfo} {c : ℚ}
    (h : extractExponent cst = some c) (v : ℚ) :
    isExponentValue cst v = decide (c = v) := by
  rw [isExponentValue_eq_extract, h]; simp

/-- Exhaustive characterization of `matchAndRewrite`: dispatch on the
classified exponent constant and, for the reciprocal rule, on whether the
result type is shaped. -/
theorem matchAndRewrite_dispatch (op : PowFOp) :
    matchAndRewrite op =
      match extractExponent op.rhs.cst, op.resultType with
      | some c, rty =>
          if c = 1 then some ⟨[], .base⟩
          else if c = 2 then
            some ⟨[⟨.mulf, [.base, .base], op.lhs.ty⟩], .newOp 0⟩
          else if c = 3 then
            some ⟨[⟨.mulf, [.base, .base], op.lhs.ty⟩,
                   ⟨.mulf, [.base, .newOp 0], op.lhs.ty⟩], .newOp 1⟩
          else if c = -1 then
            match rty with
            | .vector w b =>
                some ⟨[⟨.constantOp 1, [], .float b⟩,
                       ⟨.broadcast, [.newOp 0], .vector w b⟩,
                       ⟨.divf, [.newOp 1, .base], .vector w b⟩], .newOp 2⟩
            | .float b =>
                some ⟨[⟨.constantOp 1, [], .float b⟩,
                       ⟨.divf, [.newOp 0, .base], .float b⟩], .newOp 1⟩
          else none
      | none, _ => none := by
  rcases hE : extractExponent op.rhs.cst with _ | c
  · have e : ∀ v, isExponentValue op.rhs.cst v = false := by
      intro v; rw [isExponentValue_eq_extract, hE]; simp
    simp [matchAndRewrite, e]
  · have e := isExponentValue_of_extract hE
    by_cases h1 : c = 1
    · simp [matchAndRewrite, e, h1]
    · by_cases h2 : c = 2
      · simp [matchAndRewrite, e, h1, h2, createOp]
      · by_cases h3 : c = 3
        · simp [matchAndRewrite, e, h1, h2, h3, createOp]
        · by_cases h4 : c = -1
          · rcases hT : op.resultType with b | ⟨w, b⟩ <;>
              simp [matchAndRewrite, e, h1, h2, h3, h4, hT, createOp, bcast,
                refType, getElementTypeOrSelf]
          · simp [matchAndRewrite, e, h1, h2, h3, h4]

/-! Claim theorems. -/

/-- C1: `matchAndRewrite` performs a rewrite (returns `some`, i.e.
`success()`) if and only if the exponent operand is a scalar constant or a
splat vector constant whose shared value is exactly one of 1.0, 2.0, 3.0,
-1.0; in every other case — unrecognized value (0.5, 4.0, -3.0, -2.0,
1.0000001, ...), non-constant operand, or non-splat vector constant, all
of which classify under `extractExponent` as `none` or as `some c` with
`c` outside the table — it returns `none` (`failure()`), and since
equality on the exact rational values is exact, no tolerance is
involved. -/
theorem matchAndRewrite_isSome_iff (op : PowFOp) :
    (matchAndRewrite op).isSome = true ↔
      ∃ c, extractExponent op.rhs.cst = some c ∧
        (c = 1 ∨ c = 2 ∨ c = 3 ∨ c = -1) := by
  rw [matchAndRewrite_dispatch]
  rcases hE : extractExponent op.rhs.cst with _ | c
  · simp
  · by_cases h1 : c = 1
    · simp [h1]
    · by_cases h2 : c = 2
      · simp [h1, h2]
      · by_cases h3 : c = 3
        · simp [h1, h2, h3]
        · by_cases h4 : c = -1
          · subst h4
            rcases hT : op.resultType with b | ⟨w, b⟩ <;> norm_num
          · simp [h1, h2, h3, h4]

/-- C2: when the exponent classifies as exactly 1.0 (scalar or splat
vector constant), `matchAndRewrite` replaces the operation's result with
the base operand itself, constructs zero new operations, and succeeds. -/
theorem pow_one_rewrite (op : PowFOp)
    (h : extractExponent op.rhs.cst = some 1) :
    matchAndRewrite op = some ⟨[], ValRef.base⟩ := by
  rw [matchAndRewrite_dispatch, h]
  norm_num

theorem pow_one_rewrite_witness :
    matchAndRewrite opExp1 = some ⟨[], ValRef.base⟩ :=
  pow_one_rewrite opExp1 (by decide)

/-- C3: when the exponent classifies as exactly 2.0, `matchAndRewrite`
replaces the operation with a single new multiply `x * x` (one new
operation, whose operands are both the base) and succeeds. -/
theorem pow_two_rewrite (op : PowFOp)
    (h : extractExponent op.rhs.cst = some 2) :
    matchAndRewrite op =
      some ⟨[⟨.mulf, [.base, .base], op.lhs.ty⟩], .newOp 0⟩ := by
  rw [matchAndRewrite_dispatch, h]
  norm_num

theorem pow_two_rewrite_witness :
    matchAndRewrite opExp2 =
      some ⟨[⟨.mulf, [.base, .base], MType.float 32⟩], .newOp 0⟩ :=
  pow_two_rewrite opExp2 (by decide)

/-- C4: when the exponent classifies as exactly 3.0, `matchAndRewrite`
replaces the operation with `x * (x * x)`: exactly two new multiplies, the
intermediate `x * x` constructed once (operation 0) and its result reused
as an operand of the outer multiply (operation 1), which is the
replacement. -/
theorem pow_three_rewrite (op : PowFOp)
    (h : extractExponent op.rhs.cst = some 3) :
    matchAndRewrite op =
      some ⟨[⟨.mulf, [.base, .base], op.lhs.ty⟩,
             ⟨.mulf, [.base, .newOp 0], op.lhs.ty⟩], .newOp 1⟩ := by
  rw [matchAndRewrite_dispatch, h]
  norm_num

theorem pow_three_rewrite_witness :
    matchAndRewrite opExp3 =
      some ⟨[⟨.mulf, [.base, .base], MType.float 32⟩,
             ⟨.mulf, [.base, .newOp 0], MType.float 32⟩], .newOp 1⟩ :=
  pow_three_rewrite opExp3 (by decide)

/-- C5: when the exponent classifies as exactly -1.0, `matchAndRewrite`
replaces the operation with `1.0 / x`: a constant 1.0 is materialized at
the element type of the result; when the result type is a vector of width
`n`, it is broadcast to that `n`-wide vector type before being used as the
dividend of the divide; when the result type is scalar, no broadcast is
inserted. -/
theorem pow_neg_one_rewrite (op : PowFOp)
    (h : extractExponent op.rhs.cst = some (-1)) :
    matchAndRewrite op =
      match op.resultType with
      | .vector w b =>
          some ⟨[⟨.constantOp 1, [], .float b⟩,
                 ⟨.broadcast, [.newOp 0], .vector w b⟩,
                 ⟨.divf, [.newOp 1, .base], .vector w b⟩], .newOp 2⟩
      | .float b =>
          some ⟨[⟨.constantOp 1, [], .float b⟩,
                 ⟨.divf, [.newOp 0, .base], .float b⟩], .newOp 1⟩ := by
  rw [matchAndRewrite_dispatch, h]
  norm_num

theorem pow_neg_one_rewrite_witness :
    matchAndRewrite opExpNeg1Vec =
      some ⟨[⟨.constantOp 1, [], MType.float 32⟩,
             ⟨.broadcast, [.newOp 0], MType.vector 4 32⟩,
             ⟨.divf, [.newOp 1, .base], MType.vector 4 32⟩], .newOp 2⟩ :=
  pow_neg_one_rewrite opExpNeg1Vec (by decide)

/-- C6: `matchAndRewrite` never constructs a square-root operation.  The
final branch, whose comment announces a `sqrt` replacement for exponent
-2.0, is guarded by a second `isExponentValue(-1.0)` test, which the
earlier -1.0 rule always preempts by returning on match, so the `sqrt`
branch is unreachable for every input. -/
theorem no_sqrt_constructed (op : PowFOp) (res : RewriteResult)
    (h : matchAndRewrite op = some res) :
    containsKind res OpKind.sqrt = false := by
  rw [matchAndRewrite_dispatch] at h
  split at h
  · split at h
    · cases h; rfl
    · split at h
      · cases h; rfl
      · split at h
        · cases h; rfl
        · split at h
          · split at h
            · cases h; rfl
            · cases h; rfl
          · simp at h
  · simp at h

theorem no_sqrt_constructed_witness :
    containsKind ⟨[⟨.mulf, [.base, .base], MType.float 32⟩], .newOp 0⟩
      OpKind.sqrt = false :=
  no_sqrt_constructed opExp2 _ (by decide)

/-- C9 (idempotence): every operation constructed by a successful rewrite
has kind multiply, divide, broadcast or constant — never `powf` — so the
pattern, which only applies to power operations, is inapplicable to the
output of a previous successful rewrite; and since `matchAndRewrite` is a
pure function, re-invoking it on an operation that returned `none` returns
`none` again. -/
theorem no_powf_constructed (op : PowFOp) (res : RewriteResult)
    (h : matchAndRewrite op = some res) :
    containsKind res OpKind.powf = false := by
  rw [matchAndRewrite_dispatch] at h
  split at h
  · split at h
    · cases h; rfl
    · split at h
      · cases h; rfl
      · split at h
        · cases h; rfl
        · split at h
          · split at h
            · cases h; rfl
            · cases h; rfl
          · simp at h
  · simp at h

theorem no_powf_constructed_witness :
    containsKind ⟨[⟨.mulf, [.base, .base], MType.float 32⟩,
                   ⟨.mulf, [.base, .newOp 0], MType.float 32⟩], .newOp 1⟩
      OpKind.powf = false :=
  no_powf_constructed opExp3 _ (by decide)

/-- C7 counterexample: on `pow(%v, -1.0)` with a 4-wide vector result
type, `matchAndRewrite` succeeds and constructs three new operations — a
constant, a broadcast, and a divide — so "at most two new operations in
all cases" is false: the claim (and the spec sentence it quotes) omits the
materialized constant. -/
theorem newOps_le_two_counterexample :
    (matchAndRewrite opExpNeg1Vec).isSome = true ∧
      newOpCount (matchAndRewrite opExpNeg1Vec) = 3 := by decide

/-- C7 (amended): every invocation of `matchAndRewrite` constructs at most
three new operations: zero for exponent 1.0, one for 2.0, two for 3.0,
and for -1.0 a constant plus a divide (two, scalar result type) or a
constant plus a broadcast plus a divide (three, vector result type). -/
theorem newOps_le_three (op : PowFOp) :
    newOpCount (matchAndRewrite op) ≤ 3 := by
  rw [matchAndRewrite_dispatch]
  split
  · split
    · simp [newOpCount]
    · split
      · simp [newOpCount]
      · split
        · simp [newOpCount]
        · split
          · split <;> simp [newOpCount]
          · simp [newOpCount]
  · simp [newOpCount]

/-- C10 (type preservation): under the precondition that the base
operand's type equals the operation's result type, the replacement value
of every successful rewrite has the original result type: the 1.0 rule
substitutes the base itself, the 2.0 and 3.0 rules build multiplies typed
from the base, and the -1.0 rule materializes 1.0 at the element type of
the result, broadcasts it to the full vector type when the result is
shaped, and divides at that type. -/
theorem rewrite_type_preserved (op : PowFOp) (res : RewriteResult)
    (hty : op.lhs.ty = op.resultType)
    (h : matchAndRewrite op = some res) :
    refType op.lhs.ty res.newOps res.replacement = op.resultType := by
  rw [matchAndRewrite_dispatch] at h
  split at h
  · split at h
    · cases h; simpa [refType] using hty
    · split at h
      · cases h; simpa [refType] using hty
      · split at h
        · cases h; simpa [refType] using hty
        · split at h
          · split at h
            · rename_i w b hT
              cases h; simp [refType, hT]
            · rename_i b hT
              cases h; simp [refType, hT]
          · simp at h
  · simp at h

theorem rewrite_type_preserved_witness :
    refType opExp2.lhs.ty [⟨.mulf, [.base, .base], MType.float 32⟩]
      (ValRef.newOp 0) = opExp2.resultType :=
  rewrite_type_preserved opExp2 ⟨[⟨.mulf, [.base, .base], MType.float 32⟩], .newOp 0⟩
    (by decide) (by decide)

/-! Spec-modelled host-side shape validation (§4.1 / §7 of the spec).
`matchAndRewrite` receives a `math::PowFOp`, whose two-operand shape and
operand/result type consistency are enforced by the operation's verifier,
which lives outside this source file. -/

/-- The spec's `RewriteOutcome`, extended with the spec's
`InvalidOperationShape` failure condition: `Rewritten` carries the
installed replacement, `NoMatch` leaves the program unchanged, and
`InvalidOperationShape` aborts the attempt with no mutation (it carries no
constructed operations and no replacement). -/
inductive RewriteOutcome where
  | Rewritten (res : RewriteResult)
  | NoMatch
  | InvalidOperationShape
deriving DecidableEq, Repr

/-- An operation as the host hands it over, before shape validation: an
arbitrary operand list and a result type. -/
structure RawOp where
  operands : List SSAVal
  resultType : MType
deriving DecidableEq, Repr

/-- Modelled from the spec: the operation-shape validation that guards
`matchAndRewrite` is performed by the host (the `math::PowFOp` operation
verifier, declared outside this source file), so it is reconstructed here
from §4.1/§7 — `tryReduce` accepts a binary power operation whose result
type matches the base operand's type; a malformed operation (operand
count ≠ 2, or base/result type mismatch) fails with
`InvalidOperationShape` and no mutation is performed; otherwise the
rule dispatch of `matchAndRewrite` decides between `Rewritten` and
`NoMatch`. -/
def tryReduce (op : RawOp) : RewriteOutcome :=
  match op.operands with
  | [base, exp] =>
      if base.ty = op.resultType then
        match matchAndRewrite ⟨base, exp, op.resultType⟩ with
        | some res => .Rewritten res
        | none => .NoMatch
      else .InvalidOperationShape
  | _ => .InvalidOperationShape

/-- A malformed raw operation with operand count 1 and a base/result type
mismatch: both preconditions of C8's hypothesis violated at once is not
needed, one suffices; this one has a single operand. -/
def rawOpOneOperand : RawOp :=
  ⟨[⟨.float 32, .nonConstant⟩], .float 32⟩

/-- C8: a malformed operation — operand count different from 2, or a
binary operation whose base operand type differs from the result type —
makes `tryReduce` fail with `InvalidOperationShape`; that outcome carries
no constructed operations and no replacement, so no mutation is
performed. -/
theorem tryReduce_invalid_shape (op : RawOp)
    (h : op.operands.length ≠ 2 ∨
         ∃ base exp, op.operands = [base, exp] ∧ base.ty ≠ op.resultType) :
    tryReduce op = RewriteOutcome.InvalidOperationShape := by
  rcases op with ⟨ops, rty⟩
  rcases ops with _ | ⟨a, _ | ⟨b, _ | ⟨c, rest⟩⟩⟩
  · rfl
  · rfl
  · rcases h with h | ⟨base, exp, heq, hne⟩
    · exact absurd rfl h
    · cases heq
      simp only [tryReduce]
      rw [if_neg hne]
  · rfl

theorem tryReduce_invalid_shape_witness :
    tryReduce rawOpOneOperand = RewriteOutcome.InvalidOperationShape :=
  tryReduce_invalid_shape rawOpOneOperand (Or.inl (by decide))

end AlgebraicSimplification
